import Mathlib

/-!
Verification of the positional file-I/O layer of a completion-queue based
asynchronous I/O library (source: src/fs/file.rs), together with a model of
the driver-owned operation lifecycle described by the specification.

The kernel is modelled as an oracle: a list of responses consumed, one per
issued operation, by the retry loops.  Each embedded loop also records the
trace of kernel calls it issues (offset and slice start), so that claims
about "zero kernel operations" or "offsets covering all bytes in order" are
directly statable.
-/

deriving instance DecidableEq for Except

namespace TokioUring

/-- Error kinds of std::io used by file.rs (plus a passthrough code for any
other kernel error). -/
inductive ErrKind where
  | invalidInput
  | unexpectedEof
  | writeZero
  | interrupted
  | other (code : Nat)
deriving DecidableEq, Repr

/-- A buffer as seen through the IoBuf/IoBufMut capability contract:
`total` is bytes_total() (capacity), `init` is bytes_init() (initialized
bytes).  The loops in file.rs only consult these two lengths; `slice` and
`into_inner` round-trip the same buffer value, so the buffer is threaded
through unchanged. -/
structure Buf where
  total : Nat
  init : Nat
deriving DecidableEq, Repr

/-- One kernel response to a read_at/write_at submission: `Except.ok n` is a
successful transfer of `n` bytes, `Except.error e` a kernel error of kind
`e`. -/
abbrev KResp := Except ErrKind Nat

/-- One kernel call issued by a retry loop: `off` is the file offset passed
(`pos + bytes_done`), `sliceFrom` the start of the sub-view
(`buf.slice(bytes_done..)`). -/
structure KCall where
  off : Nat
  sliceFrom : Nat
deriving DecidableEq, Repr

/-- Maximum value of a u64, the addressable offset range. -/
def U64_MAX : Nat := 2 ^ 64 - 1

/-- `u64::checked_add`: `none` exactly when the mathematical sum exceeds
`U64_MAX`. -/
def checked_add_u64 (a b : Nat) : Option Nat :=
  if a + b ≤ U64_MAX then some (a + b) else none

/-- The `while bytes_read < buf_len` loop of File::read_exact_at
(src/fs/file.rs lines 360-384).  Arguments: `pos` and `bufLen` are the
loop-invariant offset and `buf.bytes_total()`; the list is the remaining
kernel responses; the final `Nat` is `bytes_read`.  Returns the loop result
(`none` when the oracle ran out of responses before the loop finished) and
the trace of issued kernel calls. -/
def readLoop (pos bufLen : Nat) :
    List KResp → Nat → Option (Except ErrKind Unit) × List KCall
  | [], br =>
      if br < bufLen then (none, []) else (some (Except.ok ()), [])
  | r :: rest, br =>
      if br < bufLen then
        let c : KCall := ⟨pos + br, br⟩
        match r with
        | Except.ok 0 => (some (Except.error ErrKind.unexpectedEof), [c])
        | Except.ok n =>
            let out := readLoop pos bufLen rest (br + n)
            (out.1, c :: out.2)
        | Except.error ErrKind.interrupted =>
            let out := readLoop pos bufLen rest br
            (out.1, c :: out.2)
        | Except.error e => (some (Except.error e), [c])
      else (some (Except.ok ()), [])

/-- File::read_exact_at (src/fs/file.rs lines 343-385): checks
`pos.checked_add(buf_len)` where `buf_len = buf.bytes_total()`, returning an
invalid-input error with the untouched buffer on overflow, otherwise runs
the read loop from `bytes_read = 0`.  The buffer value is returned in every
branch, as in the source. -/
def read_exact_at (resps : List KResp) (buf : Buf) (pos : Nat) :
    Option (Except ErrKind Unit) × List KCall × Buf :=
  let buf_len := buf.total
  if (checked_add_u64 pos buf_len).isNone then
    (some (Except.error ErrKind.invalidInput), [], buf)
  else
    let out := readLoop pos buf_len resps 0
    (out.1, out.2, buf)

/-- The `while bytes_written < buf_len` loop of File::write_all_at
(src/fs/file.rs lines 494-516); identical in shape to `readLoop` except
that a zero-length write yields `WriteZero`. -/
def writeLoop (pos bufLen : Nat) :
    List KResp → Nat → Option (Except ErrKind Unit) × List KCall
  | [], bw =>
      if bw < bufLen then (none, []) else (some (Except.ok ()), [])
  | r :: rest, bw =>
      if bw < bufLen then
        let c : KCall := ⟨pos + bw, bw⟩
        match r with
        | Except.ok 0 => (some (Except.error ErrKind.writeZero), [c])
        | Except.ok n =>
            let out := writeLoop pos bufLen rest (bw + n)
            (out.1, c :: out.2)
        | Except.error ErrKind.interrupted =>
            let out := writeLoop pos bufLen rest bw
            (out.1, c :: out.2)
        | Except.error e => (some (Except.error e), [c])
      else (some (Except.ok ()), [])

/-- File::write_all_at (src/fs/file.rs lines 481-519): checks
`pos.checked_add(buf_len)` where `buf_len = buf.bytes_init()` (the
initialized length, not the capacity), returning invalid-input on overflow,
otherwise runs the write loop from `bytes_written = 0`. -/
def write_all_at (resps : List KResp) (buf : Buf) (pos : Nat) :
    Option (Except ErrKind Unit) × List KCall × Buf :=
  let buf_len := buf.init
  if (checked_add_u64 pos buf_len).isNone then
    (some (Except.error ErrKind.invalidInput), [], buf)
  else
    let out := writeLoop pos buf_len resps 0
    (out.1, out.2, buf)

/-- File::close (src/fs/file.rs lines 615-618): `self.fd.close().await;
Ok(())`.  The outcome of the descriptor's asynchronous close operation is
the argument; the statement discards it and the method returns `Ok(())` in
every execution. -/
def fileClose (_fdCloseOutcome : Except ErrKind Unit) : Except ErrKind Unit :=
  Except.ok ()

/-- How a File method reacts to the outcome of building and queuing its
submission (`Op::...(..)`): either the method panics (`.unwrap()` on an
error), or it proceeds and eventually yields a value. -/
inductive SubmitOutcome (α : Type) where
  | panics
  | returns (a : α)
deriving DecidableEq, Repr

/-- What a single-shot read/write method eventually yields: the awaited
`(io::Result<usize>, buffer)` pair. -/
abbrev OneShot (β : Type) := Except ErrKind Nat × β

/-- File::read_at (src/fs/file.rs lines 176-180): `Op::read_at(..).unwrap()`
then await.  The argument is the result of building/queuing the submission,
carrying on success the value the awaited operation delivers. -/
def read_at_submit (sub : Except ErrKind (OneShot Buf)) :
    SubmitOutcome (OneShot Buf) :=
  match sub with
  | Except.error _ => SubmitOutcome.panics
  | Except.ok v => SubmitOutcome.returns v

/-- File::readv_at (src/fs/file.rs lines 227-235):
`Op::readv_at(..).unwrap()` then await. -/
def readv_at_submit (sub : Except ErrKind (OneShot (List Buf))) :
    SubmitOutcome (OneShot (List Buf)) :=
  match sub with
  | Except.error _ => SubmitOutcome.panics
  | Except.ok v => SubmitOutcome.returns v

/-- File::write_at (src/fs/file.rs lines 433-436):
`Op::write_at(..).unwrap()` then await. -/
def write_at_submit (sub : Except ErrKind (OneShot Buf)) :
    SubmitOutcome (OneShot Buf) :=
  match sub with
  | Except.error _ => SubmitOutcome.panics
  | Except.ok v => SubmitOutcome.returns v

/-- File::writev_at (src/fs/file.rs lines 284-291):
`Op::writev_at(..).unwrap()` then await. -/
def writev_at_submit (sub : Except ErrKind (OneShot (List Buf))) :
    SubmitOutcome (OneShot (List Buf)) :=
  match sub with
  | Except.error _ => SubmitOutcome.panics
  | Except.ok v => SubmitOutcome.returns v

/-- File::sync_all (src/fs/file.rs lines 549-551): `Op::fsync(&self.fd)?.await`.
The `?` operator turns a submission error into an early `Err` return; on
success the awaited `io::Result<()>` is returned. -/
def sync_all_submit (sub : Except ErrKind (Except ErrKind Unit)) :
    SubmitOutcome (Except ErrKind Unit) :=
  match sub with
  | Except.error e => SubmitOutcome.returns (Except.error e)
  | Except.ok v => SubmitOutcome.returns v

/-- File::sync_data (src/fs/file.rs lines 586-588):
`Op::datasync(&self.fd)?.await`. -/
def sync_data_submit (sub : Except ErrKind (Except ErrKind Unit)) :
    SubmitOutcome (Except ErrKind Unit) :=
  match sub with
  | Except.error e => SubmitOutcome.returns (Except.error e)
  | Except.ok v => SubmitOutcome.returns v

/-- remove_file (src/fs/file.rs lines 656-658):
`Op::unlink_file(path)?.await`. -/
def remove_file_submit (sub : Except ErrKind (Except ErrKind Unit)) :
    SubmitOutcome (Except ErrKind Unit) :=
  match sub with
  | Except.error e => SubmitOutcome.returns (Except.error e)
  | Except.ok v => SubmitOutcome.returns v

/-- rename (src/fs/file.rs lines 678-680):
`Op::rename_at(from, to, 0)?.await`. -/
def rename_submit (sub : Except ErrKind (Except ErrKind Unit)) :
    SubmitOutcome (Except ErrKind Unit) :=
  match sub with
  | Except.error e => SubmitOutcome.returns (Except.error e)
  | Except.ok v => SubmitOutcome.returns v

/-! ## Operation lifecycle and the Driver's slot table

The Operation/Driver code is not part of the given sources (only file.rs
is); the model below follows the specification's description of the
lifecycle. -/

/-- Modelled from the spec: the Operation state machine
{Created, Submitted, Completed, Detached} of the data model; `Op`, the
driver and its slot table are not in the given sources. -/
inductive OpState where
  | Created
  | Submitted
  | Completed
  | Detached
deriving DecidableEq, Repr

/-- Modelled from the spec: one occupied slot of the Driver's slot table: an
in-flight Operation's state together with (an identifier of) the buffer it
exclusively owns. -/
structure Slot where
  state : OpState
  buf : Nat
deriving DecidableEq, Repr

/-- Modelled from the spec: the Driver's slot table — one entry per
correlation token (`none` once the token's completion has been delivered). -/
abbrev SlotTable := List (Option Slot)

/-- Modelled from the spec: the events acting on the slot table: submitting
a new operation owning a buffer, the caller discarding the awaited future of
the operation at a token, and the kernel delivering the completion for a
token. -/
inductive Ev where
  | submit (buf : Nat)
  | dropFuture (tok : Nat)
  | complete (tok : Nat)
deriving DecidableEq, Repr

/-- Modelled from the spec: one transition of the Driver's slot table.
`submit` moves the buffer into a fresh slot in Submitted state; `dropFuture`
on a Submitted slot transitions it to Detached, keeping the slot and its
buffer owned by the table; `complete` delivers (or, for a Detached slot,
discards) the result and frees the slot, returning/dropping the buffer. -/
def step (d : SlotTable) : Ev → SlotTable
  | Ev.submit b => d ++ [some ⟨OpState.Submitted, b⟩]
  | Ev.dropFuture t =>
      match d[t]? with
      | some (some s) =>
          if s.state = OpState.Submitted then
            d.set t (some ⟨OpState.Detached, s.buf⟩)
          else d
      | _ => d
  | Ev.complete t => d.set t none

/-- Modelled from the spec: running a sequence of events against the slot
table. -/
def run (d : SlotTable) : List Ev → SlotTable
  | [] => d
  | e :: es => run (step d e) es

/-- No slot other than the one at token `t` holds buffer `b`: buffer `b` is
not reused by or reassigned to another operation. -/
def bufFreeExcept (d : SlotTable) (t b : Nat) : Bool :=
  (List.range d.length).all fun i =>
    i = t ||
      match d[i]? with
      | some (some s) => s.buf != b
      | _ => true

/-- Total number of bytes reported transferred by the successful responses
of a list. -/
def okSum : List KResp → Nat
  | [] => 0
  | Except.ok n :: rest => n + okSum rest
  | Except.error _ :: rest => okSum rest

/-- A response the retry loops continue after: a successful transfer of at
least one byte, or an interrupted error (which is retried). -/
def progressResp : KResp → Bool
  | Except.ok 0 => false
  | Except.ok _ => true
  | Except.error ErrKind.interrupted => true
  | Except.error _ => false

/-- Every response in the list keeps the retry loop going. -/
def progressOnly (l : List KResp) : Prop :=
  ∀ r ∈ l, progressResp r = true

instance (l : List KResp) : Decidable (progressOnly l) := by
  unfold progressOnly
  infer_instance

/-- The kernel-call trace produced by a retry loop that, starting with
`bytes_done = bw`, is granted the successive transfer counts `ks`: the i-th
call goes to offset `pos + (bw + k_0 + ... + k_(i-1))` over the sub-view
starting at that accumulated count. -/
def callsOf (pos : Nat) : Nat → List Nat → List KCall
  | _, [] => []
  | bw, k :: ks => ⟨pos + bw, bw⟩ :: callsOf pos (bw + k) ks

/-! ## Lemmas about the retry loops -/

theorem readLoop_eof (pos bufLen : Nat) :
    ∀ (pre rest : List KResp) (br : Nat),
      progressOnly pre → br + okSum pre < bufLen →
      (readLoop pos bufLen (pre ++ Except.ok 0 :: rest) br).1 =
        some (Except.error ErrKind.unexpectedEof) := by
  intro pre
  induction pre with
  | nil =>
      intro rest br _ hlt
      simp only [okSum, Nat.add_zero] at hlt
      simp [readLoop, hlt]
  | cons r pre ih =>
      intro rest br hprog hlt
      have hr : progressResp r = true := hprog r (List.mem_cons_self r pre)
      have hpre : progressOnly pre := fun x hx => hprog x (List.mem_cons_of_mem r hx)
      match r with
      | Except.ok 0 => simp [progressResp] at hr
      | Except.ok (n+1) =>
          have hsum : okSum (Except.ok (n+1) :: pre) = (n+1) + okSum pre := rfl
          have hbr : br < bufLen := by omega
          rw [List.cons_append]
          simp only [readLoop, if_pos hbr]
          exact ih rest (br + (n + 1)) hpre (by omega)
      | Except.error ErrKind.interrupted =>
          have hsum : okSum (Except.error ErrKind.interrupted :: pre) = okSum pre := rfl
          have hbr : br < bufLen := by omega
          rw [List.cons_append]
          simp only [readLoop, if_pos hbr]
          exact ih rest br hpre (by omega)
      | Except.error ErrKind.invalidInput => simp [progressResp] at hr
      | Except.error ErrKind.unexpectedEof => simp [progressResp] at hr
      | Except.error ErrKind.writeZero => simp [progressResp] at hr
      | Except.error (ErrKind.other c) => simp [progressResp] at hr

theorem writeLoop_wzero (pos bufLen : Nat) :
    ∀ (pre rest : List KResp) (bw : Nat),
      progressOnly pre → bw + okSum pre < bufLen →
      (writeLoop pos bufLen (pre ++ Except.ok 0 :: rest) bw).1 =
        some (Except.error ErrKind.writeZero) := by
  intro pre
  induction pre with
  | nil =>
      intro rest bw _ hlt
      simp only [okSum, Nat.add_zero] at hlt
      simp [writeLoop, hlt]
  | cons r pre ih =>
      intro rest bw hprog hlt
      have hr : progressResp r = true := hprog r (List.mem_cons_self r pre)
      have hpre : progressOnly pre := fun x hx => hprog x (List.mem_cons_of_mem r hx)
      match r with
      | Except.ok 0 => simp [progressResp] at hr
      | Except.ok (n+1) =>
          have hsum : okSum (Except.ok (n+1) :: pre) = (n+1) + okSum pre := rfl
          have hbw : bw < bufLen := by omega
          rw [List.cons_append]
          simp only [writeLoop, if_pos hbw]
          exact ih rest (bw + (n + 1)) hpre (by omega)
      | Except.error ErrKind.interrupted =>
          have hsum : okSum (Except.error ErrKind.interrupted :: pre) = okSum pre := rfl
          have hbw : bw < bufLen := by omega
          rw [List.cons_append]
          simp only [writeLoop, if_pos hbw]
          exact ih rest bw hpre (by omega)
      | Except.error ErrKind.invalidInput => simp [progressResp] at hr
      | Except.error ErrKind.unexpectedEof => simp [progressResp] at hr
      | Except.error ErrKind.writeZero => simp [progressResp] at hr
      | Except.error (ErrKind.other c) => simp [progressResp] at hr

theorem writeLoop_covers (pos bufLen : Nat) :
    ∀ (ks : List Nat) (bw : Nat),
      (∀ k ∈ ks, 1 ≤ k) → bw + ks.sum = bufLen →
      writeLoop pos bufLen (ks.map Except.ok) bw =
        (some (Except.ok ()), callsOf pos bw ks) := by
  intro ks
  induction ks with
  | nil =>
      intro bw _ hsum
      simp only [List.sum_nil, Nat.add_zero] at hsum
      simp [writeLoop, callsOf, hsum]
  | cons k ks ih =>
      intro bw hk hsum
      have hk1 : 1 ≤ k := hk k (List.mem_cons_self k ks)
      have hsum' : bw + k + ks.sum = bufLen := by
        simp only [List.sum_cons] at hsum
        omega
      have hbw : bw < bufLen := by omega
      obtain ⟨m, rfl⟩ : ∃ m, k = m + 1 := ⟨k - 1, by omega⟩
      simp only [List.map_cons, writeLoop, if_pos hbw]
      rw [ih (bw + (m + 1)) (fun x hx => hk x (List.mem_cons_of_mem _ hx)) (by omega)]
      simp [callsOf]

theorem readLoop_no_intr (pos bufLen : Nat) :
    ∀ (resps : List KResp) (br : Nat),
      (readLoop pos bufLen resps br).1 ≠ some (Except.error ErrKind.interrupted) := by
  intro resps
  induction resps with
  | nil =>
      intro br
      by_cases h : br < bufLen <;> simp [readLoop, h]
  | cons r rest ih =>
      intro br
      by_cases h : br < bufLen
      · match r with
        | Except.ok 0 => simp [readLoop, h]
        | Except.ok (n+1) =>
            simp only [readLoop, if_pos h]
            exact ih (br + (n + 1))
        | Except.error ErrKind.interrupted =>
            simp only [readLoop, if_pos h]
            exact ih br
        | Except.error ErrKind.invalidInput => simp [readLoop, h]
        | Except.error ErrKind.unexpectedEof => simp [readLoop, h]
        | Except.error ErrKind.writeZero => simp [readLoop, h]
        | Except.error (ErrKind.other c) => simp [readLoop, h]
      · simp [readLoop, h]

theorem writeLoop_no_intr (pos bufLen : Nat) :
    ∀ (resps : List KResp) (bw : Nat),
      (writeLoop pos bufLen resps bw).1 ≠ some (Except.error ErrKind.interrupted) := by
  intro resps
  induction resps with
  | nil =>
      intro bw
      by_cases h : bw < bufLen <;> simp [writeLoop, h]
  | cons r rest ih =>
      intro bw
      by_cases h : bw < bufLen
      · match r with
        | Except.ok 0 => simp [writeLoop, h]
        | Except.ok (n+1) =>
            simp only [writeLoop, if_pos h]
            exact ih (bw + (n + 1))
        | Except.error ErrKind.interrupted =>
            simp only [writeLoop, if_pos h]
            exact ih bw
        | Except.error ErrKind.invalidInput => simp [writeLoop, h]
        | Except.error ErrKind.unexpectedEof => simp [writeLoop, h]
        | Except.error ErrKind.writeZero => simp [writeLoop, h]
        | Except.error (ErrKind.other c) => simp [writeLoop, h]
      · simp [writeLoop, h]

theorem readLoop_intr_eq (pos bufLen : Nat) (rs : List KResp) (br : Nat)
    (h : br < bufLen) :
    readLoop pos bufLen (Except.error ErrKind.interrupted :: rs) br =
      ((readLoop pos bufLen rs br).1,
        KCall.mk (pos + br) br :: (readLoop pos bufLen rs br).2) := by
  simp [readLoop, h]

theorem writeLoop_intr_eq (pos bufLen : Nat) (rs : List KResp) (bw : Nat)
    (h : bw < bufLen) :
    writeLoop pos bufLen (Except.error ErrKind.interrupted :: rs) bw =
      ((writeLoop pos bufLen rs bw).1,
        KCall.mk (pos + bw) bw :: (writeLoop pos bufLen rs bw).2) := by
  simp [writeLoop, h]

theorem readLoop_err_abort (pos bufLen : Nat) (e : ErrKind) (rs : List KResp)
    (br : Nat) (hne : e ≠ ErrKind.interrupted) (h : br < bufLen) :
    readLoop pos bufLen (Except.error e :: rs) br =
      (some (Except.error e), [KCall.mk (pos + br) br]) := by
  match e with
  | ErrKind.interrupted => exact absurd rfl hne
  | ErrKind.invalidInput => simp [readLoop, h]
  | ErrKind.unexpectedEof => simp [readLoop, h]
  | ErrKind.writeZero => simp [readLoop, h]
  | ErrKind.other c => simp [readLoop, h]

theorem writeLoop_err_abort (pos bufLen : Nat) (e : ErrKind) (rs : List KResp)
    (bw : Nat) (hne : e ≠ ErrKind.interrupted) (h : bw < bufLen) :
    writeLoop pos bufLen (Except.error e :: rs) bw =
      (some (Except.error e), [KCall.mk (pos + bw) bw]) := by
  match e with
  | ErrKind.interrupted => exact absurd rfl hne
  | ErrKind.invalidInput => simp [writeLoop, h]
  | ErrKind.unexpectedEof => simp [writeLoop, h]
  | ErrKind.writeZero => simp [writeLoop, h]
  | ErrKind.other c => simp [writeLoop, h]

theorem readLoop_trace_head (pos bufLen : Nat) (r : KResp) (rs : List KResp)
    (br : Nat) (h : br < bufLen) :
    ∃ tl, (readLoop pos bufLen (r :: rs) br).2 = KCall.mk (pos + br) br :: tl := by
  match r with
  | Except.ok 0 => exact ⟨[], by simp [readLoop, h]⟩
  | Except.ok (n+1) =>
      exact ⟨(readLoop pos bufLen rs (br + (n + 1))).2, by simp [readLoop, h]⟩
  | Except.error ErrKind.interrupted =>
      exact ⟨(readLoop pos bufLen rs br).2, by simp [readLoop, h]⟩
  | Except.error ErrKind.invalidInput => exact ⟨[], by simp [readLoop, h]⟩
  | Except.error ErrKind.unexpectedEof => exact ⟨[], by simp [readLoop, h]⟩
  | Except.error ErrKind.writeZero => exact ⟨[], by simp [readLoop, h]⟩
  | Except.error (ErrKind.other c) => exact ⟨[], by simp [readLoop, h]⟩

theorem writeLoop_trace_head (pos bufLen : Nat) (r : KResp) (rs : List KResp)
    (bw : Nat) (h : bw < bufLen) :
    ∃ tl, (writeLoop pos bufLen (r :: rs) bw).2 = KCall.mk (pos + bw) bw :: tl := by
  match r with
  | Except.ok 0 => exact ⟨[], by simp [writeLoop, h]⟩
  | Except.ok (n+1) =>
      exact ⟨(writeLoop pos bufLen rs (bw + (n + 1))).2, by simp [writeLoop, h]⟩
  | Except.error ErrKind.interrupted =>
      exact ⟨(writeLoop pos bufLen rs bw).2, by simp [writeLoop, h]⟩
  | Except.error ErrKind.invalidInput => exact ⟨[], by simp [writeLoop, h]⟩
  | Except.error ErrKind.unexpectedEof => exact ⟨[], by simp [writeLoop, h]⟩
  | Except.error ErrKind.writeZero => exact ⟨[], by simp [writeLoop, h]⟩
  | Except.error (ErrKind.other c) => exact ⟨[], by simp [writeLoop, h]⟩

theorem read_exact_at_eq_loop (resps : List KResp) (buf : Buf) (pos : Nat)
    (hov : pos + buf.total ≤ U64_MAX) :
    read_exact_at resps buf pos =
      ((readLoop pos buf.total resps 0).1,
        (readLoop pos buf.total resps 0).2, buf) := by
  have hadd : (checked_add_u64 pos buf.total).isNone = false := by
    simp [checked_add_u64, hov]
  simp [read_exact_at, hadd]

theorem write_all_at_eq_loop (resps : List KResp) (buf : Buf) (pos : Nat)
    (hov : pos + buf.init ≤ U64_MAX) :
    write_all_at resps buf pos =
      ((writeLoop pos buf.init resps 0).1,
        (writeLoop pos buf.init resps 0).2, buf) := by
  have hadd : (checked_add_u64 pos buf.init).isNone = false := by
    simp [checked_add_u64, hov]
  simp [write_all_at, hadd]

theorem readLoop_len_zero (pos : Nat) (resps : List KResp) :
    readLoop pos 0 resps 0 = (some (Except.ok ()), []) := by
  cases resps with
  | nil => simp [readLoop]
  | cons r rest => simp [readLoop]

theorem writeLoop_len_zero (pos : Nat) (resps : List KResp) :
    writeLoop pos 0 resps 0 = (some (Except.ok ()), []) := by
  cases resps with
  | nil => simp [writeLoop]
  | cons r rest => simp [writeLoop]

/-! ## Lemmas about the slot-table model -/

theorem dropFuture_detaches (d : SlotTable) (t b : Nat)
    (hd : d[t]? = some (some (Slot.mk OpState.Submitted b))) :
    (step d (Ev.dropFuture t))[t]? = some (some (Slot.mk OpState.Detached b)) := by
  have ht : t < d.length := (List.getElem?_eq_some.mp hd).1
  simp only [step]
  rw [hd]
  show (if (Slot.mk OpState.Submitted b).state = OpState.Submitted then
      List.set d t (some (Slot.mk OpState.Detached (Slot.mk OpState.Submitted b).buf))
    else d)[t]? = some (some (Slot.mk OpState.Detached b))
  rw [if_pos rfl]
  exact List.getElem?_set_self ht

theorem step_keeps_detached (d : SlotTable) (t b : Nat) (e : Ev)
    (hd : d[t]? = some (some (Slot.mk OpState.Detached b)))
    (hne : e ≠ Ev.complete t) :
    (step d e)[t]? = some (some (Slot.mk OpState.Detached b)) := by
  have ht : t < d.length := (List.getElem?_eq_some.mp hd).1
  match e with
  | Ev.submit b' =>
      simp only [step]
      rw [List.getElem?_append_left ht]
      exact hd
  | Ev.dropFuture t' =>
      simp only [step]
      by_cases htt : t' = t
      · subst htt
        rw [hd]
        simp
        exact hd
      · cases hdt : d[t']? with
        | none => exact hd
        | some o =>
            cases o with
            | none => exact hd
            | some s =>
                show (if s.state = OpState.Submitted then
                    List.set d t' (some (Slot.mk OpState.Detached s.buf)) else d)[t]? =
                  some (some (Slot.mk OpState.Detached b))
                by_cases hs : s.state = OpState.Submitted
                · rw [if_pos hs, List.getElem?_set_ne htt]
                  exact hd
                · rw [if_neg hs]
                  exact hd
  | Ev.complete t' =>
      have htt : t' ≠ t := fun h => hne (by rw [h])
      simp only [step]
      rw [List.getElem?_set_ne htt]
      exact hd

theorem run_keeps_detached (t b : Nat) :
    ∀ (evs : List Ev) (d : SlotTable),
      d[t]? = some (some (Slot.mk OpState.Detached b)) →
      (∀ e ∈ evs, e ≠ Ev.complete t) →
      (run d evs)[t]? = some (some (Slot.mk OpState.Detached b)) := by
  intro evs
  induction evs with
  | nil => intro d hd _; exact hd
  | cons e evs ih =>
      intro d hd hne
      simp only [run]
      exact ih (step d e)
        (step_keeps_detached d t b e hd (hne e (List.mem_cons_self e evs)))
        (fun x hx => hne x (List.mem_cons_of_mem e hx))

theorem bufFreeExcept_iff (d : SlotTable) (t b : Nat) :
    bufFreeExcept d t b = true ↔
      ∀ i s, i ≠ t → d[i]? = some (some s) → s.buf ≠ b := by
  unfold bufFreeExcept
  rw [List.all_eq_true]
  constructor
  · intro h i s hit hget
    have hi : i < d.length := (List.getElem?_eq_some.mp hget).1
    have h2 := h i (List.mem_range.mpr hi)
    rw [hget] at h2
    simp [hit] at h2
    exact h2
  · intro h i hi
    cases hget : d[i]? with
    | none => simp [hget]
    | some o =>
        cases o with
        | none => simp [hget]
        | some s =>
            by_cases hit : i = t
            · simp [hit]
            · simp [hget, hit]
              exact h i s hit hget

theorem step_keeps_bufFree (d : SlotTable) (t b : Nat) (e : Ev)
    (hfree : bufFreeExcept d t b = true)
    (hnotsub : e ≠ Ev.submit b) :
    bufFreeExcept (step d e) t b = true := by
  rw [bufFreeExcept_iff] at hfree ⊢
  intro i s hit hget
  match e with
  | Ev.submit b' =>
      have hbb : b' ≠ b := fun h => hnotsub (by rw [h])
      simp only [step] at hget
      by_cases hi : i < d.length
      · rw [List.getElem?_append_left hi] at hget
        exact hfree i s hit hget
      · have hlen : i < d.length + 1 := by
          have h2 := (List.getElem?_eq_some.mp hget).1
          simpa [List.length_append] using h2
        have hieq : i = d.length := by omega
        subst hieq
        rw [List.getElem?_concat_length] at hget
        cases hget
        exact hbb
  | Ev.dropFuture t' =>
      simp only [step] at hget
      cases hdt : d[t']? with
      | none =>
          rw [hdt] at hget
          exact hfree i s hit hget
      | some o =>
          cases o with
          | none =>
              rw [hdt] at hget
              exact hfree i s hit hget
          | some s' =>
              rw [hdt] at hget
              have hget2 : (if s'.state = OpState.Submitted then
                  List.set d t' (some (Slot.mk OpState.Detached s'.buf)) else d)[i]? =
                  some (some s) := hget
              by_cases hs : s'.state = OpState.Submitted
              · rw [if_pos hs] at hget2
                by_cases hit' : i = t'
                · subst hit'
                  have hi : i < d.length := (List.getElem?_eq_some.mp hdt).1
                  rw [List.getElem?_set_self hi] at hget2
                  cases hget2
                  exact hfree i s' hit hdt
                · rw [List.getElem?_set_ne (fun h => hit' h.symm)] at hget2
                  exact hfree i s hit hget2
              · rw [if_neg hs] at hget2
                exact hfree i s hit hget2
  | Ev.complete t' =>
      simp only [step] at hget
      by_cases hit' : i = t'
      · subst hit'
        by_cases hi : i < d.length
        · rw [List.getElem?_set_self hi] at hget
          simp at hget
        · rw [List.getElem?_eq_none_iff.mpr (by rw [List.length_set]; omega)] at hget
          simp at hget
      · rw [List.getElem?_set_ne (fun h => hit' h.symm)] at hget
        exact hfree i s hit hget

theorem run_keeps_bufFree (t b : Nat) :
    ∀ (evs : List Ev) (d : SlotTable),
      bufFreeExcept d t b = true →
      (∀ e ∈ evs, e ≠ Ev.submit b) →
      bufFreeExcept (run d evs) t b = true := by
  intro evs
  induction evs with
  | nil => intro d hfree _; exact hfree
  | cons e evs ih =>
      intro d hfree hns
      simp only [run]
      exact ih (step d e)
        (step_keeps_bufFree d t b e hfree (hns e (List.mem_cons_self e evs)))
        (fun x hx => hns x (List.mem_cons_of_mem e hx))

/-! ## Claims -/

/-- C2: if, with no offset overflow, the read_exact_at loop receives a
successful zero-length read while fewer than bytes_total bytes have been
accumulated (after a prefix of responses that each make progress and
together transfer fewer than bytes_total bytes), it returns an
UnexpectedEof error together with the buffer holding what was accumulated
so far. -/
theorem read_exact_at_unexpected_eof
    (pre rest : List KResp) (buf : Buf) (pos : Nat)
    (hprog : progressOnly pre) (hsum : okSum pre < buf.total)
    (hov : pos + buf.total ≤ U64_MAX) :
    (read_exact_at (pre ++ Except.ok 0 :: rest) buf pos).1 =
      some (Except.error ErrKind.unexpectedEof) ∧
    (read_exact_at (pre ++ Except.ok 0 :: rest) buf pos).2.2 = buf := by
  rw [read_exact_at_eq_loop _ _ _ hov]
  exact ⟨readLoop_eof pos buf.total pre rest 0 hprog (by omega), rfl⟩

/-- Witness for C2 at a concrete input: a 1-byte read then EOF against a
3-byte buffer at offset 5. -/
theorem read_exact_at_unexpected_eof_witness :
    progressOnly [Except.ok 1] ∧ okSum [Except.ok 1] < (Buf.mk 3 0).total ∧
    (5 : Nat) + (Buf.mk 3 0).total ≤ U64_MAX ∧
    ((read_exact_at ([Except.ok 1] ++ Except.ok 0 :: []) (Buf.mk 3 0) 5).1 =
        some (Except.error ErrKind.unexpectedEof) ∧
      (read_exact_at ([Except.ok 1] ++ Except.ok 0 :: []) (Buf.mk 3 0) 5).2.2 =
        Buf.mk 3 0) :=
  ⟨by decide, by decide, by decide,
    read_exact_at_unexpected_eof [Except.ok 1] [] (Buf.mk 3 0) 5
      (by decide) (by decide) (by decide)⟩

/-- C3: with no offset overflow, a kernel granting the successive positive
transfer counts `ks` summing to the initialized length makes write_all_at
terminate with `Ok(())`, the buffer returned, and a kernel-call trace equal
to `callsOf pos 0 ks`: the i-th call is issued at offset
`pos + (k_0 + ... + k_(i-1))` over the sub-view starting at that
accumulated count, so the calls cover all `bytes_init` bytes exactly once,
in order. -/
theorem write_all_at_partial_writes
    (ks : List Nat) (buf : Buf) (pos : Nat)
    (hk : ∀ k ∈ ks, 1 ≤ k) (hsum : ks.sum = buf.init)
    (hov : pos + buf.init ≤ U64_MAX) :
    write_all_at (ks.map Except.ok) buf pos =
      (some (Except.ok ()), callsOf pos 0 ks, buf) := by
  rw [write_all_at_eq_loop _ _ _ hov,
    writeLoop_covers pos buf.init ks 0 hk (by omega)]

/-- Witness for C3 at a concrete input: counts 1 and 2 filling a buffer
with 3 initialized bytes at offset 10. -/
theorem write_all_at_partial_writes_witness :
    (∀ k ∈ [1, 2], 1 ≤ k) ∧ ([1, 2] : List Nat).sum = (Buf.mk 3 3).init ∧
    (10 : Nat) + (Buf.mk 3 3).init ≤ U64_MAX ∧
    write_all_at ([1, 2].map Except.ok) (Buf.mk 3 3) 10 =
      (some (Except.ok ()), callsOf 10 0 [1, 2], Buf.mk 3 3) :=
  ⟨by decide, by decide, by decide,
    write_all_at_partial_writes [1, 2] (Buf.mk 3 3) 10
      (by decide) (by decide) (by decide)⟩

/-- C4: when `pos + bytes_total` overflows the u64 offset range,
read_exact_at returns an InvalidInput error with the unmodified buffer and
an empty kernel-call trace, whatever the kernel would have answered. -/
theorem read_exact_at_offset_overflow
    (resps : List KResp) (buf : Buf) (pos : Nat)
    (hpos : pos ≤ U64_MAX) (hov : U64_MAX < pos + buf.total) :
    read_exact_at resps buf pos =
      (some (Except.error ErrKind.invalidInput), [], buf) := by
  have hadd : (checked_add_u64 pos buf.total).isNone = true := by
    simp only [checked_add_u64]
    rw [if_neg (by omega)]
    rfl
  simp [read_exact_at, hadd]

/-- Witness for C4 at a concrete input: a 1-byte buffer at the maximum
offset. -/
theorem read_exact_at_offset_overflow_witness :
    (U64_MAX : Nat) ≤ U64_MAX ∧ U64_MAX < U64_MAX + (Buf.mk 1 0).total ∧
    read_exact_at [Except.ok 1] (Buf.mk 1 0) U64_MAX =
      (some (Except.error ErrKind.invalidInput), [], Buf.mk 1 0) :=
  ⟨by decide, by decide,
    read_exact_at_offset_overflow [Except.ok 1] (Buf.mk 1 0) U64_MAX
      (by decide) (by decide)⟩

/-- C5 counterexample: write_all_at checks `pos + bytes_init`, not
`pos + bytes_total`.  For the buffer with capacity 2 and 0 initialized
bytes at offset u64::MAX, `pos + bytes_total` exceeds the maximum
representable offset, yet write_all_at returns `Ok(())` (not an
invalid-input error). -/
theorem write_all_at_capacity_overflow_cex :
    U64_MAX < U64_MAX + (Buf.mk 2 0).total ∧
    (write_all_at [] (Buf.mk 2 0) U64_MAX).1 ≠
      some (Except.error ErrKind.invalidInput) ∧
    (write_all_at [] (Buf.mk 2 0) U64_MAX).1 = some (Except.ok ()) ∧
    (write_all_at [] (Buf.mk 2 0) U64_MAX).2.1 = [] := by
  exact ⟨by decide, by decide, by decide, by decide⟩

/-- C5 amended: when `pos + bytes_init` (the length write_all_at actually
writes) overflows the u64 offset range, write_all_at returns an
invalid-input error immediately, issues zero kernel operations, and
returns the buffer. -/
theorem write_all_at_offset_overflow
    (resps : List KResp) (buf : Buf) (pos : Nat)
    (hpos : pos ≤ U64_MAX) (hov : U64_MAX < pos + buf.init) :
    write_all_at resps buf pos =
      (some (Except.error ErrKind.invalidInput), [], buf) := by
  have hadd : (checked_add_u64 pos buf.init).isNone = true := by
    simp only [checked_add_u64]
    rw [if_neg (by omega)]
    rfl
  simp [write_all_at, hadd]

/-- Witness for the amended C5 at a concrete input: one initialized byte at
the maximum offset. -/
theorem write_all_at_offset_overflow_witness :
    (U64_MAX : Nat) ≤ U64_MAX ∧ U64_MAX < U64_MAX + (Buf.mk 1 1).init ∧
    write_all_at [Except.ok 1] (Buf.mk 1 1) U64_MAX =
      (some (Except.error ErrKind.invalidInput), [], Buf.mk 1 1) :=
  ⟨by decide, by decide,
    write_all_at_offset_overflow [Except.ok 1] (Buf.mk 1 1) U64_MAX
      (by decide) (by decide)⟩

/-- C6: if, with no offset overflow, the write_all_at loop receives a
successful zero-length write while fewer than bytes_init bytes have been
written (after a prefix of responses that each make progress and together
transfer fewer than bytes_init bytes), it returns a WriteZero error
together with the buffer. -/
theorem write_all_at_write_zero
    (pre rest : List KResp) (buf : Buf) (pos : Nat)
    (hprog : progressOnly pre) (hsum : okSum pre < buf.init)
    (hov : pos + buf.init ≤ U64_MAX) :
    (write_all_at (pre ++ Except.ok 0 :: rest) buf pos).1 =
      some (Except.error ErrKind.writeZero) ∧
    (write_all_at (pre ++ Except.ok 0 :: rest) buf pos).2.2 = buf := by
  rw [write_all_at_eq_loop _ _ _ hov]
  exact ⟨writeLoop_wzero pos buf.init pre rest 0 hprog (by omega), rfl⟩

/-- Witness for C6 at a concrete input: a 1-byte write then a zero-length
write against 3 initialized bytes at offset 5. -/
theorem write_all_at_write_zero_witness :
    progressOnly [Except.ok 1] ∧ okSum [Except.ok 1] < (Buf.mk 3 3).init ∧
    (5 : Nat) + (Buf.mk 3 3).init ≤ U64_MAX ∧
    ((write_all_at ([Except.ok 1] ++ Except.ok 0 :: []) (Buf.mk 3 3) 5).1 =
        some (Except.error ErrKind.writeZero) ∧
      (write_all_at ([Except.ok 1] ++ Except.ok 0 :: []) (Buf.mk 3 3) 5).2.2 =
        Buf.mk 3 3) :=
  ⟨by decide, by decide, by decide,
    write_all_at_write_zero [Except.ok 1] [] (Buf.mk 3 3) 5
      (by decide) (by decide) (by decide)⟩

/-- C8 counterexample: File::close discards the outcome of the
descriptor's close operation; when the kernel close fails (here with error
code 5), the method still returns `Ok(())`, so the kernel error is not
surfaced to the caller. -/
theorem file_close_error_not_surfaced_cex :
    fileClose (Except.error (ErrKind.other 5)) = Except.ok () ∧
    (Except.ok () : Except ErrKind Unit) ≠ Except.error (ErrKind.other 5) :=
  ⟨rfl, by decide⟩

/-- C8 amended: File::close consumes the File, awaits the descriptor's
asynchronous close operation, and returns `Ok(())` unconditionally: kernel
close errors are never surfaced by the explicit close() call. -/
theorem file_close_always_ok (fdCloseOutcome : Except ErrKind Unit) :
    fileClose fdCloseOutcome = Except.ok () := rfl

/-- C9: for any offset within the u64 range, read_exact_at on a buffer
with bytes_total = 0 and write_all_at on a buffer with bytes_init = 0
return `Ok(())` with the buffer immediately and issue zero kernel
operations. -/
theorem zero_length_no_kernel_ops
    (resps : List KResp) (rbuf wbuf : Buf) (pos : Nat)
    (hpos : pos ≤ U64_MAX) (hr : rbuf.total = 0) (hw : wbuf.init = 0) :
    read_exact_at resps rbuf pos = (some (Except.ok ()), [], rbuf) ∧
    write_all_at resps wbuf pos = (some (Except.ok ()), [], wbuf) := by
  constructor
  · rw [read_exact_at_eq_loop _ _ _ (by omega), hr, readLoop_len_zero]
  · rw [write_all_at_eq_loop _ _ _ (by omega), hw, writeLoop_len_zero]

/-- Witness for C9 at a concrete input: empty buffers at the maximum
offset, with one kernel response available that is never used. -/
theorem zero_length_no_kernel_ops_witness :
    (U64_MAX : Nat) ≤ U64_MAX ∧ (Buf.mk 0 0).total = 0 ∧ (Buf.mk 4 0).init = 0 ∧
    (read_exact_at [Except.ok 1] (Buf.mk 0 0) U64_MAX =
        (some (Except.ok ()), [], Buf.mk 0 0) ∧
      write_all_at [Except.ok 1] (Buf.mk 4 0) U64_MAX =
        (some (Except.ok ()), [], Buf.mk 4 0)) :=
  ⟨by decide, by decide, by decide,
    zero_length_no_kernel_ops [Except.ok 1] (Buf.mk 0 0) (Buf.mk 4 0) U64_MAX
      (by decide) (by decide) (by decide)⟩

/-- C10: when building or queuing the submission itself fails with any
error `e`, the single-shot methods read_at, readv_at, write_at and
writev_at panic (`.unwrap()`), while sync_all, sync_data, remove_file and
rename propagate the submission error with the `?` operator instead. -/
theorem submission_error_unwrap_vs_propagate (e : ErrKind) :
    read_at_submit (Except.error e) = SubmitOutcome.panics ∧
    readv_at_submit (Except.error e) = SubmitOutcome.panics ∧
    write_at_submit (Except.error e) = SubmitOutcome.panics ∧
    writev_at_submit (Except.error e) = SubmitOutcome.panics ∧
    sync_all_submit (Except.error e) = SubmitOutcome.returns (Except.error e) ∧
    sync_data_submit (Except.error e) = SubmitOutcome.returns (Except.error e) ∧
    remove_file_submit (Except.error e) = SubmitOutcome.returns (Except.error e) ∧
    rename_submit (Except.error e) = SubmitOutcome.returns (Except.error e) :=
  ⟨rfl, rfl, rfl, rfl, rfl, rfl, rfl, rfl⟩

/-- C7: an Interrupted kernel error is never the result delivered by
read_exact_at or write_all_at; inside both loops an interrupted response
leaves the accumulated byte count unchanged (so the next call, if any, is
re-issued at the same offset over the same sub-view, witnessed by the two
equal consecutive trace entries), while a response with any other error
kind aborts the loop at once, making that error the final result with no
further kernel calls. -/
theorem interrupted_absorbed_others_abort :
    (∀ (resps : List KResp) (buf : Buf) (pos : Nat),
        (read_exact_at resps buf pos).1 ≠ some (Except.error ErrKind.interrupted)) ∧
    (∀ (resps : List KResp) (buf : Buf) (pos : Nat),
        (write_all_at resps buf pos).1 ≠ some (Except.error ErrKind.interrupted)) ∧
    (∀ (pos bufLen : Nat) (rs : List KResp) (br : Nat), br < bufLen →
        readLoop pos bufLen (Except.error ErrKind.interrupted :: rs) br =
          ((readLoop pos bufLen rs br).1,
            KCall.mk (pos + br) br :: (readLoop pos bufLen rs br).2)) ∧
    (∀ (pos bufLen : Nat) (rs : List KResp) (bw : Nat), bw < bufLen →
        writeLoop pos bufLen (Except.error ErrKind.interrupted :: rs) bw =
          ((writeLoop pos bufLen rs bw).1,
            KCall.mk (pos + bw) bw :: (writeLoop pos bufLen rs bw).2)) ∧
    (∀ (pos bufLen : Nat) (r : KResp) (rs : List KResp) (br : Nat), br < bufLen →
        (readLoop pos bufLen
            (Except.error ErrKind.interrupted :: r :: rs) br).2.take 2 =
          [KCall.mk (pos + br) br, KCall.mk (pos + br) br]) ∧
    (∀ (pos bufLen : Nat) (r : KResp) (rs : List KResp) (bw : Nat), bw < bufLen →
        (writeLoop pos bufLen
            (Except.error ErrKind.interrupted :: r :: rs) bw).2.take 2 =
          [KCall.mk (pos + bw) bw, KCall.mk (pos + bw) bw]) ∧
    (∀ (pos bufLen : Nat) (e : ErrKind) (rs : List KResp) (br : Nat),
        e ≠ ErrKind.interrupted → br < bufLen →
        readLoop pos bufLen (Except.error e :: rs) br =
          (some (Except.error e), [KCall.mk (pos + br) br])) ∧
    (∀ (pos bufLen : Nat) (e : ErrKind) (rs : List KResp) (bw : Nat),
        e ≠ ErrKind.interrupted → bw < bufLen →
        writeLoop pos bufLen (Except.error e :: rs) bw =
          (some (Except.error e), [KCall.mk (pos + bw) bw])) := by
  refine ⟨?_, ?_, readLoop_intr_eq, writeLoop_intr_eq, ?_, ?_,
    readLoop_err_abort, writeLoop_err_abort⟩
  · intro resps buf pos
    by_cases hov : pos + buf.total ≤ U64_MAX
    · rw [read_exact_at_eq_loop _ _ _ hov]
      exact readLoop_no_intr pos buf.total resps 0
    · have hadd : (checked_add_u64 pos buf.total).isNone = true := by
        simp only [checked_add_u64]
        rw [if_neg (by omega)]
        rfl
      simp [read_exact_at, hadd]
  · intro resps buf pos
    by_cases hov : pos + buf.init ≤ U64_MAX
    · rw [write_all_at_eq_loop _ _ _ hov]
      exact writeLoop_no_intr pos buf.init resps 0
    · have hadd : (checked_add_u64 pos buf.init).isNone = true := by
        simp only [checked_add_u64]
        rw [if_neg (by omega)]
        rfl
      simp [write_all_at, hadd]
  · intro pos bufLen r rs br h
    rw [readLoop_intr_eq pos bufLen (r :: rs) br h]
    obtain ⟨tl, htl⟩ := readLoop_trace_head pos bufLen r rs br h
    simp [htl]
  · intro pos bufLen r rs bw h
    rw [writeLoop_intr_eq pos bufLen (r :: rs) bw h]
    obtain ⟨tl, htl⟩ := writeLoop_trace_head pos bufLen r rs bw h
    simp [htl]

/-- Witness for C7 at concrete inputs: interrupted responses inside a
1-byte loop at offset 3, and an aborting error of another kind. -/
theorem interrupted_absorbed_others_abort_witness :
    (read_exact_at [Except.error ErrKind.interrupted] (Buf.mk 1 0) 3).1 ≠
        some (Except.error ErrKind.interrupted) ∧
    (write_all_at [Except.error ErrKind.interrupted] (Buf.mk 1 1) 3).1 ≠
        some (Except.error ErrKind.interrupted) ∧
    readLoop 3 1 [Except.error ErrKind.interrupted, Except.ok 1] 0 =
      ((readLoop 3 1 [Except.ok 1] 0).1,
        KCall.mk 3 0 :: (readLoop 3 1 [Except.ok 1] 0).2) ∧
    writeLoop 3 1 [Except.error ErrKind.interrupted, Except.ok 1] 0 =
      ((writeLoop 3 1 [Except.ok 1] 0).1,
        KCall.mk 3 0 :: (writeLoop 3 1 [Except.ok 1] 0).2) ∧
    (readLoop 3 1
        [Except.error ErrKind.interrupted, Except.ok 1] 0).2.take 2 =
      [KCall.mk 3 0, KCall.mk 3 0] ∧
    (writeLoop 3 1
        [Except.error ErrKind.interrupted, Except.ok 1] 0).2.take 2 =
      [KCall.mk 3 0, KCall.mk 3 0] ∧
    readLoop 3 1 [Except.error (ErrKind.other 7)] 0 =
      (some (Except.error (ErrKind.other 7)), [KCall.mk 3 0]) ∧
    writeLoop 3 1 [Except.error (ErrKind.other 7)] 0 =
      (some (Except.error (ErrKind.other 7)), [KCall.mk 3 0]) := by
  obtain ⟨h1, h2, h3, h4, h5, h6, h7, h8⟩ := interrupted_absorbed_others_abort
  exact ⟨h1 [Except.error ErrKind.interrupted] (Buf.mk 1 0) 3,
    h2 [Except.error ErrKind.interrupted] (Buf.mk 1 1) 3,
    h3 3 1 [Except.ok 1] 0 (by decide),
    h4 3 1 [Except.ok 1] 0 (by decide),
    h5 3 1 (Except.ok 1) [] 0 (by decide),
    h6 3 1 (Except.ok 1) [] 0 (by decide),
    h7 3 1 (ErrKind.other 7) [] 0 (by decide) (by decide),
    h8 3 1 (ErrKind.other 7) [] 0 (by decide) (by decide)⟩

/-- C1: a submitted Operation whose awaited future is discarded is not
destroyed: the dropFuture transition moves its slot to Detached keeping
its buffer; the slot and buffer survive, owned by the slot table, through
any further events that are not its own completion; a buffer held only by
this operation is never reassigned to another slot (as long as it is not
resubmitted); and when the real completion finally arrives the slot is
freed and the unobserved result and buffer are discarded. -/
theorem detached_op_retained
    (d : SlotTable) (t b : Nat)
    (hd : d[t]? = some (some (Slot.mk OpState.Submitted b))) :
    (step d (Ev.dropFuture t))[t]? = some (some (Slot.mk OpState.Detached b)) ∧
    (∀ evs : List Ev, (∀ e ∈ evs, e ≠ Ev.complete t) →
      (run (step d (Ev.dropFuture t)) evs)[t]? =
        some (some (Slot.mk OpState.Detached b))) ∧
    (∀ evs : List Ev, (∀ e ∈ evs, e ≠ Ev.submit b) →
      bufFreeExcept d t b = true →
      bufFreeExcept (run (step d (Ev.dropFuture t)) evs) t b = true) ∧
    (∀ evs : List Ev, (∀ e ∈ evs, e ≠ Ev.complete t) →
      (step (run (step d (Ev.dropFuture t)) evs) (Ev.complete t))[t]? =
        some none) := by
  have hdet := dropFuture_detaches d t b hd
  refine ⟨hdet, ?_, ?_, ?_⟩
  · intro evs hne
    exact run_keeps_detached t b evs _ hdet hne
  · intro evs hns hfree
    refine run_keeps_bufFree t b evs _ ?_ hns
    exact step_keeps_bufFree d t b (Ev.dropFuture t) hfree
      (fun h => Ev.noConfusion h)
  · intro evs hne
    have hrun := run_keeps_detached t b evs _ hdet hne
    have ht : t < (run (step d (Ev.dropFuture t)) evs).length :=
      (List.getElem?_eq_some.mp hrun).1
    simp only [step]
    exact List.getElem?_set_self ht

/-- Witness for C1 at a concrete input: one submitted operation with
buffer 7 at token 0, detached, then another operation submitted with a
different buffer before the completion of token 0 arrives. -/
theorem detached_op_retained_witness :
    ([some (Slot.mk OpState.Submitted 7)] : SlotTable)[0]? =
        some (some (Slot.mk OpState.Submitted 7)) ∧
    (step [some (Slot.mk OpState.Submitted 7)] (Ev.dropFuture 0))[0]? =
        some (some (Slot.mk OpState.Detached 7)) ∧
    (run (step [some (Slot.mk OpState.Submitted 7)] (Ev.dropFuture 0))
        [Ev.submit 3])[0]? = some (some (Slot.mk OpState.Detached 7)) ∧
    bufFreeExcept
        (run (step [some (Slot.mk OpState.Submitted 7)] (Ev.dropFuture 0))
          [Ev.submit 3]) 0 7 = true ∧
    (step (run (step [some (Slot.mk OpState.Submitted 7)] (Ev.dropFuture 0))
        [Ev.submit 3]) (Ev.complete 0))[0]? = some none := by
  have h := detached_op_retained [some (Slot.mk OpState.Submitted 7)] 0 7
    (by decide)
  exact ⟨by decide, h.1, h.2.1 [Ev.submit 3] (by decide),
    h.2.2.1 [Ev.submit 3] (by decide) (by decide),
    h.2.2.2 [Ev.submit 3] (by decide)⟩

end TokioUring
